import Mathlib

/-!
Verification development for the RecipeTask pipeline.

The Python sources embedded here:
* `firestore_etl_direct.py` — `transform_and_normalize`, which flattens
  nested recipe documents into four record sets;
* `normalized_output/data_validator.py` — `validate_data` and the
  preprocessing done by `run_validator`;
* `analytics_script.py` — the insight computations of `generate_insights`
  needed by the claims (insights 4, 5, 8, 10, 11).

Conventions of the embedding: pandas cell values become the `Value` type
(`None`, `NaN`, strings, rationals); a DataFrame is a list of rows; Python
code that can raise is modelled with `Except`; the `uuid.uuid4()` surrogate
keys are modelled by a fresh-key counter threaded through normalization
(uuid4 draws are assumed pairwise distinct); decimal rounding (`round(x, 2)`
and `.round(2)`, which are round-half-to-even on floats) is idealized as
exact half-to-even rounding on rationals.
-/

namespace RecipeTask

/-- A cell value as it appears in a pandas DataFrame row loaded from CSV:
Python `None`, float `NaN`, a string, or a number (modelled as a rational). -/
inductive Value
| null
| nan
| vstr (s : String)
| vnum (q : ℚ)
deriving DecidableEq, Repr

/-- pd.isna: true on `None` and `NaN`. -/
def Value.isna : Value → Bool
| .null => true
| .nan => true
| _ => false

/-- Python `v < c` for a numeric cell. `NaN < c` is `False` in Python; the
guarded comparisons in the validator only reach numeric or `NaN` cells for
the data produced by the ETL, so non-numeric cells are modelled as `false`. -/
def Value.ltQ : Value → ℚ → Bool
| .vnum q, c => decide (q < c)
| _, _ => false

/-- Python `v > c` for a numeric cell (same conventions as `Value.ltQ`). -/
def Value.gtQ : Value → ℚ → Bool
| .vnum q, c => decide (c < q)
| _, _ => false

/-- str(v) as interpolated into the f-string reasons (numeric display
idealized to the rational printed by Lean). -/
def Value.display : Value → String
| .null => "None"
| .nan => "nan"
| .vstr s => s
| .vnum q => toString q

/-- A DataFrame row: the association of column names to cell values. -/
abbrev Row : Type := List (String × Value)

/-- Column access `row[field]`. The CSVs written by the ETL always carry the
full schema, so the KeyError raised by Python on a missing column is not
modelled; a missing column reads as `None`. -/
def Row.get (r : Row) (k : String) : Value :=
  match r.find? (fun kv => kv.1 == k) with
  | some kv => kv.2
  | none => Value.null

def VALID_DIFFICULTIES : List String := ["Easy", "Medium", "Hard"]

def VALID_INTERACTION_TYPES : List String := ["VIEW", "LIKE", "COOK_ATTEMPT"]

/-- Rule 1 of every branch of `validate_data`: one reason per required field
that is null (`pd.isna`). -/
def requiredReasons (fields : List String) (row : Row) : List String :=
  fields.filterMap (fun f =>
    if (row.get f).isna then some ("Missing required field: " ++ f) else none)

/-- Reasons collected for one `recipe` row (the three rules of the `recipe`
branch of `validate_data`, in source order). -/
def recipeReasons (row : Row) : List String :=
  requiredReasons
      ["recipe_id", "name", "serves", "prep_time_minutes", "cook_time_minutes",
       "difficulty"] row
    ++ (["serves", "prep_time_minutes", "cook_time_minutes"].filterMap (fun f =>
          if row.get f ≠ Value.null ∧ (row.get f).ltQ 0 then
            some ("Field " ++ f ++ " must be positive, found: "
                  ++ (row.get f).display)
          else none))
    ++ (if VALID_DIFFICULTIES.any (fun d => row.get "difficulty" == Value.vstr d)
        then []
        else ["Invalid difficulty value: " ++ (row.get "difficulty").display])

/-- Reasons collected for one `ingredients` row. -/
def ingredientsReasons (row : Row) : List String :=
  requiredReasons ["ingredient_pk_id", "recipe_id", "name", "quantity"] row
    ++ (if row.get "quantity" ≠ Value.null ∧ (row.get "quantity").ltQ 0 then
          ["Quantity must be positive, found: " ++ (row.get "quantity").display]
        else [])

/-- Reasons collected for one `steps` row. -/
def stepsReasons (row : Row) : List String :=
  requiredReasons ["step_pk_id", "recipe_id", "step_number", "description"] row
    ++ (if row.get "step_number" ≠ Value.null ∧ (row.get "step_number").ltQ 1 then
          ["Step number must be positive, found: "
           ++ (row.get "step_number").display]
        else [])

/-- Rule 3 of the `interactions` branch: the if/elif pair on the rating. -/
def ratingReason (row : Row) : List String :=
  if row.get "interaction_type" == Value.vstr "COOK_ATTEMPT"
      && ((row.get "rating").isna || (row.get "rating").ltQ 1
          || (row.get "rating").gtQ 5) then
    ["Cook attempt must have a rating between 1 and 5."]
  else if row.get "interaction_type" != Value.vstr "COOK_ATTEMPT"
      && !(row.get "rating").isna then
    ["Interaction type " ++ (row.get "interaction_type").display
     ++ " should not have a rating."]
  else []

/-- Reasons collected for one `interactions` row. -/
def interactionsReasons (row : Row) : List String :=
  requiredReasons
      ["interaction_id", "user_id", "recipe_id", "interaction_type",
       "timestamp"] row
    ++ (if VALID_INTERACTION_TYPES.any
            (fun t => row.get "interaction_type" == Value.vstr t) then []
        else ["Invalid interaction type: "
              ++ (row.get "interaction_type").display])
    ++ ratingReason row

/-- One entry of the validation report. -/
structure Entry where
  id : Value
  status : String
  reasons : List String
deriving DecidableEq, Repr

/-- The row loop shared by the four branches of `validate_data`: a record is
appended to the report iff at least one rule fired, carrying every reason. -/
def buildReport (idCol : String) (reasonsOf : Row → List String) :
    List Row → List Entry
| [] => []
| row :: rest =>
  if reasonsOf row = [] then buildReport idCol reasonsOf rest
  else { id := row.get idCol, status := "INVALID", reasons := reasonsOf row }
        :: buildReport idCol reasonsOf rest

/-- The report produced by `validate_data` for a given file key (the if/elif
dispatch of the source; an unrecognized key runs no rules). -/
def reportFor (fileKey : String) (df : List Row) : List Entry :=
  if fileKey = "recipe" then buildReport "recipe_id" recipeReasons df
  else if fileKey = "ingredients" then
    buildReport "ingredient_pk_id" ingredientsReasons df
  else if fileKey = "steps" then buildReport "step_pk_id" stepsReasons df
  else if fileKey = "interactions" then
    buildReport "interaction_id" interactionsReasons df
  else []

/-- `validate_data(file_key, df)`: returns
`(total_records, valid_records, invalid_records, validation_report)` with
`total = len(df)`, `invalid = len(report)`, `valid = total - invalid`. -/
def validate_data (fileKey : String) (df : List Row) :
    Nat × Nat × Nat × List Entry :=
  (df.length, df.length - (reportFor fileKey df).length,
   (reportFor fileKey df).length, reportFor fileKey df)

/-- The id column used by each branch of `validate_data`. -/
def idColFor (fileKey : String) : String :=
  if fileKey = "recipe" then "recipe_id"
  else if fileKey = "ingredients" then "ingredient_pk_id"
  else if fileKey = "steps" then "step_pk_id"
  else if fileKey = "interactions" then "interaction_id"
  else ""

/-- The per-row reasons computed by each branch of `validate_data`. -/
def reasonsFor (fileKey : String) (row : Row) : List String :=
  if fileKey = "recipe" then recipeReasons row
  else if fileKey = "ingredients" then ingredientsReasons row
  else if fileKey = "steps" then stepsReasons row
  else if fileKey = "interactions" then interactionsReasons row
  else []

/-- Preprocessing done by `run_validator` before calling `validate_data`:
`df['rating'] = df['rating'].fillna(-1)` whenever the column exists. The
in-source comment announces a fill value of `None`; the code fills `-1`. -/
def fillRatingRow (row : Row) : Row :=
  row.map (fun kv =>
    if kv.1 == "rating" && kv.2.isna then ("rating", Value.vnum (-1)) else kv)

lemma buildReport_eq_filterMap (idCol : String) (reasonsOf : Row → List String)
    (df : List Row) :
    buildReport idCol reasonsOf df = df.filterMap (fun row =>
      if reasonsOf row = [] then none
      else some { id := row.get idCol, status := "INVALID",
                  reasons := reasonsOf row }) := by
  induction df with
  | nil => rfl
  | cons row rest ih =>
      by_cases h : reasonsOf row = [] <;>
        simp [buildReport, List.filterMap_cons, h, ih]

lemma filterMap_none_eq_nil {α β : Type} (l : List α) :
    l.filterMap (fun _ => (none : Option β)) = [] := by
  induction l <;> simp_all [List.filterMap_cons]

lemma reportFor_eq_filterMap (fileKey : String) (df : List Row) :
    reportFor fileKey df = df.filterMap (fun row =>
      if reasonsFor fileKey row = [] then none
      else some { id := row.get (idColFor fileKey), status := "INVALID",
                  reasons := reasonsFor fileKey row }) := by
  unfold reportFor reasonsFor idColFor
  split_ifs with h1 h2 h3 h4 h5
  · exact buildReport_eq_filterMap _ _ df
  · exact buildReport_eq_filterMap _ _ df
  · exact buildReport_eq_filterMap _ _ df
  · exact buildReport_eq_filterMap _ _ df
  · exact (filterMap_none_eq_nil df).symm
  · exact absurd rfl h5

lemma reportFor_length_le (fileKey : String) (df : List Row) :
    (reportFor fileKey df).length ≤ df.length := by
  rw [reportFor_eq_filterMap]
  exact List.length_filterMap_le _ _

/-- C9: for every record set handed to `validate_data`, the returned counts
satisfy `total = len(df)`, `valid + invalid = total`,
`invalid = len(report)`, and the report is exactly the in-order sequence of
entries for the records whose collected reason list is non-empty, each entry
carrying the full reason list of its record. -/
theorem c9_validator_counts_report (fileKey : String) (df : List Row) :
    (validate_data fileKey df).1 = df.length ∧
    (validate_data fileKey df).2.1 + (validate_data fileKey df).2.2.1 =
      (validate_data fileKey df).1 ∧
    (validate_data fileKey df).2.2.1 =
      (validate_data fileKey df).2.2.2.length ∧
    (validate_data fileKey df).2.2.2 = df.filterMap (fun row =>
      if reasonsFor fileKey row = [] then none
      else some { id := row.get (idColFor fileKey), status := "INVALID",
                  reasons := reasonsFor fileKey row }) := by
  refine ⟨rfl, ?_, rfl, reportFor_eq_filterMap fileKey df⟩
  exact Nat.sub_add_cancel (reportFor_length_le fileKey df)

/-- C10: a file key outside the four recognized record-set keys applies no
rule: every record counts as valid and the report is empty. -/
theorem c10_unknown_key_all_valid (fileKey : String) (df : List Row)
    (h : fileKey ∉ ["recipe", "ingredients", "steps", "interactions"]) :
    validate_data fileKey df = (df.length, df.length, 0, []) := by
  simp only [List.mem_cons, List.not_mem_nil, or_false, not_or] at h
  obtain ⟨h1, h2, h3, h4⟩ := h
  simp [validate_data, reportFor, h1, h2, h3, h4]

/-- Witness for C10 at the concrete key `users`. -/
theorem c10_unknown_key_witness :
    validate_data "users" [[("a", Value.null)]] = (1, 1, 0, []) :=
  c10_unknown_key_all_valid "users" [[("a", Value.null)]] (by decide)

/-- A `VIEW` interaction row whose rating is absent (`NaN` after CSV load). -/
def viewRowNoRating : Row :=
  [("interaction_id", Value.vstr "I1"), ("user_id", Value.vstr "U1"),
   ("recipe_id", Value.vstr "R1"), ("interaction_type", Value.vstr "VIEW"),
   ("rating", Value.nan), ("timestamp", Value.vstr "2024-01-01T00:00:00")]

/-- C2: `validate_data` alone accepts a non-COOK_ATTEMPT row with an absent
rating, but the `run_validator` path first replaces the absent rating with
`-1` (its own comment says `None`), after which the very same row is
reported invalid with the should-not-have-a-rating reason. -/
theorem c2_run_validator_fillna_eval :
    validate_data "interactions" [viewRowNoRating] = (1, 1, 0, []) ∧
    validate_data "interactions" ([viewRowNoRating].map fillRatingRow) =
      (1, 0, 1,
       [{ id := Value.vstr "I1", status := "INVALID",
          reasons := ["Interaction type VIEW should not have a rating."] }]) := by
  constructor <;> rfl

/-- Python truthiness of a cell, as tested by `if not recipe_id` and
`if interaction.get('timestamp')`. -/
def Value.truthy : Value → Bool
| .null => false
| .nan => true
| .vstr s => s ≠ ""
| .vnum q => q ≠ 0

/-- A timestamp-typed cell of an input document: absent (`None`), a
Firestore `Timestamp` object (carrying the string its `.isoformat()`
returns), or the ISO string such an object gets replaced by. -/
inductive Ts
| null
| tsObj (iso : String)
| isoStr (s : String)
deriving DecidableEq, Repr

/-- Python truthiness of a timestamp cell. -/
def Ts.truthy : Ts → Bool
| .null => false
| .tsObj _ => true
| .isoStr s => s ≠ ""

/-- `.isoformat()` as called under the truthiness guard. A `Timestamp`
object yields its ISO string; `None` never reaches the call (falsy); a
nonempty plain string would raise `AttributeError` in Python but never
occurs in documents fetched from Firestore, modelled as identity. -/
def Ts.isoformat : Ts → Ts
| .tsObj s => .isoStr s
| t => t

/-- The ISO text of a timestamp cell (used for `created_at`). -/
def Ts.isoText : Ts → String
| .tsObj s => s
| .isoStr s => s
| .null => ""

/-- An entry of a recipe document's embedded `ingredients` array. -/
structure IngDoc where
  name : Value
  quantity : Value
  unit : Value
deriving DecidableEq, Repr

/-- An entry of a recipe document's embedded `steps` array. -/
structure StepDoc where
  step_number : Value
  description : Value
deriving DecidableEq, Repr

/-- A recipe document as fetched from the `recipes` collection; a missing
`ingredients`/`steps` key reads as the empty list (`doc.get(k, [])`). -/
structure RecipeDoc where
  recipe_id : Value
  name : Value
  serves : Value
  prep_time_minutes : Value
  cook_time_minutes : Value
  difficulty : Value
  created_at : Ts
  ingredients : List IngDoc
  steps : List StepDoc
deriving DecidableEq, Repr

/-- An interaction document as fetched from the `interactions` collection. -/
structure InteractionDoc where
  interaction_id : Value
  user_id : Value
  recipe_id : Value
  interaction_type : Value
  rating : Value
  timestamp : Ts
deriving DecidableEq, Repr

/-- One row of the normalized `recipe` record set. -/
structure RecipeRec where
  recipe_id : Value
  name : Value
  serves : Value
  prep_time_minutes : Value
  cook_time_minutes : Value
  difficulty : Value
  created_at : Option String
deriving DecidableEq, Repr

/-- One row of the normalized `ingredients` record set; the surrogate key
drawn from `uuid.uuid4()` is modelled as a fresh counter value. -/
structure IngredientRec where
  ingredient_pk_id : Nat
  recipe_id : Value
  name : Value
  quantity : Value
  unit : Value
deriving DecidableEq, Repr

/-- One row of the normalized `steps` record set. -/
structure StepRec where
  step_pk_id : Nat
  recipe_id : Value
  step_number : Value
  description : Value
deriving DecidableEq, Repr

/-- The Recipe row built for one retained recipe document (step A of
`transform_and_normalize`). -/
def mkRecipeRec (d : RecipeDoc) : RecipeRec :=
  { recipe_id := d.recipe_id, name := d.name, serves := d.serves,
    prep_time_minutes := d.prep_time_minutes,
    cook_time_minutes := d.cook_time_minutes, difficulty := d.difficulty,
    created_at :=
      if d.created_at.truthy then some d.created_at.isoText else none }

/-- Step B: one Ingredient row per embedded ingredient, each with a fresh
surrogate key (counter `k`) and the parent's `recipe_id` as foreign key. -/
def normIngredients (rid : Value) : List IngDoc → Nat → List IngredientRec
| [], _ => []
| ing :: rest, k =>
  { ingredient_pk_id := k, recipe_id := rid, name := ing.name,
    quantity := ing.quantity, unit := ing.unit }
    :: normIngredients rid rest (k + 1)

/-- Step C: one Step row per embedded step, keyed like the ingredients. -/
def normSteps (rid : Value) : List StepDoc → Nat → List StepRec
| [], _ => []
| st :: rest, k =>
  { step_pk_id := k, recipe_id := rid, step_number := st.step_number,
    description := st.description }
    :: normSteps rid rest (k + 1)

/-- The recipe loop of `transform_and_normalize`: documents whose
`recipe_id` is falsy are skipped with a log line; retained documents emit
one Recipe row plus their exploded ingredients and steps. The counter `k`
threads the fresh surrogate keys. -/
def transformRecipes : List RecipeDoc → Nat →
    List RecipeRec × List IngredientRec × List StepRec
| [], _ => ([], [], [])
| d :: rest, k =>
  if d.recipe_id.truthy then
    let out := transformRecipes rest (k + d.ingredients.length + d.steps.length)
    (mkRecipeRec d :: out.1,
     normIngredients d.recipe_id d.ingredients k ++ out.2.1,
     normSteps d.recipe_id d.steps (k + d.ingredients.length) ++ out.2.2)
  else transformRecipes rest k

/-- Step D: the in-place timestamp canonicalization of one interaction
document (`interaction['timestamp'] = interaction['timestamp'].isoformat()`
under the truthiness guard). -/
def mutateInteraction (i : InteractionDoc) : InteractionDoc :=
  if i.timestamp.truthy then { i with timestamp := i.timestamp.isoformat }
  else i

/-- `transform_and_normalize(recipes_data, interactions_data)`: the four
record sets. The interaction record set is the caller's own document list
after the in-place timestamp mutation, hence it is also the state of
`interactions_data` the caller observes after the call. -/
def transform_and_normalize (recipes : List RecipeDoc)
    (inters : List InteractionDoc) :
    List RecipeRec × List IngredientRec × List StepRec
      × List InteractionDoc :=
  ((transformRecipes recipes 0).1, (transformRecipes recipes 0).2.1,
   (transformRecipes recipes 0).2.2, inters.map mutateInteraction)

/-- The state of the caller's `recipes_data` after the call: the source
contains no assignment into any recipe document (only `.get` reads), so it
is the input itself. -/
def finalRecipesData (recipes : List RecipeDoc)
    (_inters : List InteractionDoc) : List RecipeDoc := recipes

lemma map_eq_self_iff {α : Type} (f : α → α) (l : List α) :
    l.map f = l ↔ ∀ x ∈ l, f x = x := by
  induction l with
  | nil => simp
  | cons a t ih => simp_all

lemma mutateInteraction_eq_self_iff (d : InteractionDoc) :
    mutateInteraction d = d ↔ ∀ s, d.timestamp ≠ Ts.tsObj s := by
  obtain ⟨i1, u1, r1, it1, ra1, ts1⟩ := d
  cases ts1 with
  | null => simp [mutateInteraction, Ts.truthy]
  | tsObj s =>
      constructor
      · intro h
        exfalso
        have hts := congrArg InteractionDoc.timestamp h
        simp [mutateInteraction, Ts.truthy, Ts.isoformat] at hts
      · intro h
        exact absurd rfl (h s)
  | isoStr s =>
      by_cases hs : s = "" <;>
        simp [mutateInteraction, Ts.truthy, Ts.isoformat, hs]

def cexInteraction : InteractionDoc :=
  { interaction_id := Value.vstr "I1", user_id := Value.vstr "U1",
    recipe_id := Value.vstr "R1", interaction_type := Value.vstr "VIEW",
    rating := Value.null, timestamp := Ts.tsObj "2024-01-01T00:00:00" }

/-- C1 counterexample: a caller holding a reference to an interaction
document with a Timestamp observes, after the call, a document different
from its value before the call (the timestamp was replaced in place by its
ISO string), refuting the claim that every input document is unchanged. -/
theorem c1_interactions_mutated_cex :
    (transform_and_normalize [] [cexInteraction]).2.2.2 ≠ [cexInteraction] := by
  decide

/-- C1 (amended): the recipe documents are left unchanged and the output
record sets are built from new records, but the interaction documents are
mutated in place: the caller observes the original interaction list iff no
document held a Timestamp object, and the mutation touches only the
`timestamp` field. -/
theorem c1_transform_mutation_scope (recipes : List RecipeDoc)
    (inters : List InteractionDoc) :
    finalRecipesData recipes inters = recipes ∧
    ((transform_and_normalize recipes inters).2.2.2 = inters ↔
      ∀ d ∈ inters, ∀ s, d.timestamp ≠ Ts.tsObj s) ∧
    (∀ d : InteractionDoc,
      (mutateInteraction d).interaction_id = d.interaction_id ∧
      (mutateInteraction d).user_id = d.user_id ∧
      (mutateInteraction d).recipe_id = d.recipe_id ∧
      (mutateInteraction d).interaction_type = d.interaction_type ∧
      (mutateInteraction d).rating = d.rating) := by
  refine ⟨rfl, ?_, ?_⟩
  · show inters.map mutateInteraction = inters ↔ _
    rw [map_eq_self_iff]
    constructor
    · intro h d hd
      exact (mutateInteraction_eq_self_iff d).mp (h d hd)
    · intro h d hd
      exact (mutateInteraction_eq_self_iff d).mpr (h d hd)
  · intro d
    unfold mutateInteraction
    split_ifs <;> simp

lemma transformRecipes_cons_pos (d : RecipeDoc) (rest : List RecipeDoc)
    (k : Nat) (h : d.recipe_id.truthy = true) :
    transformRecipes (d :: rest) k =
      (mkRecipeRec d
        :: (transformRecipes rest
              (k + d.ingredients.length + d.steps.length)).1,
       normIngredients d.recipe_id d.ingredients k
        ++ (transformRecipes rest
              (k + d.ingredients.length + d.steps.length)).2.1,
       normSteps d.recipe_id d.steps (k + d.ingredients.length)
        ++ (transformRecipes rest
              (k + d.ingredients.length + d.steps.length)).2.2) := by
  simp [transformRecipes, h]

lemma transformRecipes_cons_neg (d : RecipeDoc) (rest : List RecipeDoc)
    (k : Nat) (h : ¬ d.recipe_id.truthy = true) :
    transformRecipes (d :: rest) k = transformRecipes rest k := by
  simp [transformRecipes, h]

lemma normIngredients_map_rid (rid : Value) (l : List IngDoc) :
    ∀ k, (normIngredients rid l k).map (fun r => r.recipe_id)
      = List.replicate l.length rid := by
  induction l with
  | nil => intro k; rfl
  | cons ing rest ih =>
      intro k
      simp [normIngredients, ih (k + 1), List.replicate_succ]

lemma normSteps_map_rid (rid : Value) (l : List StepDoc) :
    ∀ k, (normSteps rid l k).map (fun r => r.recipe_id)
      = List.replicate l.length rid := by
  induction l with
  | nil => intro k; rfl
  | cons st rest ih =>
      intro k
      simp [normSteps, ih (k + 1), List.replicate_succ]

lemma normIngredients_map_pk (rid : Value) (l : List IngDoc) :
    ∀ k, (normIngredients rid l k).map (fun r => r.ingredient_pk_id)
      = List.range' k l.length := by
  induction l with
  | nil => intro k; rfl
  | cons ing rest ih =>
      intro k
      simp [normIngredients, ih (k + 1), List.range'_succ]

lemma normSteps_map_pk (rid : Value) (l : List StepDoc) :
    ∀ k, (normSteps rid l k).map (fun r => r.step_pk_id)
      = List.range' k l.length := by
  induction l with
  | nil => intro k; rfl
  | cons st rest ih =>
      intro k
      simp [normSteps, ih (k + 1), List.range'_succ]

lemma transformRecipes_ing_rids (l : List RecipeDoc) : ∀ k,
    (transformRecipes l k).2.1.map (fun r => r.recipe_id)
      = (l.filter (fun d => d.recipe_id.truthy)).flatMap
          (fun d => List.replicate d.ingredients.length d.recipe_id) := by
  induction l with
  | nil => intro k; rfl
  | cons d rest ih =>
      intro k
      by_cases h : d.recipe_id.truthy = true
      · rw [transformRecipes_cons_pos d rest k h]
        simp [List.filter_cons, h, normIngredients_map_rid, ih]
      · rw [transformRecipes_cons_neg d rest k h]
        simp [List.filter_cons, h, ih]

lemma transformRecipes_step_rids (l : List RecipeDoc) : ∀ k,
    (transformRecipes l k).2.2.map (fun r => r.recipe_id)
      = (l.filter (fun d => d.recipe_id.truthy)).flatMap
          (fun d => List.replicate d.steps.length d.recipe_id) := by
  induction l with
  | nil => intro k; rfl
  | cons d rest ih =>
      intro k
      by_cases h : d.recipe_id.truthy = true
      · rw [transformRecipes_cons_pos d rest k h]
        simp [List.filter_cons, h, normSteps_map_rid, ih]
      · rw [transformRecipes_cons_neg d rest k h]
        simp [List.filter_cons, h, ih]

/-- Fresh surrogate keys consumed while normalizing a document list. -/
def keysUsed : List RecipeDoc → Nat
| [] => 0
| d :: rest =>
  (if d.recipe_id.truthy then d.ingredients.length + d.steps.length else 0)
    + keysUsed rest

lemma transformRecipes_pk_bounds (l : List RecipeDoc) : ∀ k,
    (∀ p ∈ (transformRecipes l k).2.1.map (fun r => r.ingredient_pk_id),
       k ≤ p ∧ p < k + keysUsed l) ∧
    (∀ p ∈ (transformRecipes l k).2.2.map (fun r => r.step_pk_id),
       k ≤ p ∧ p < k + keysUsed l) := by
  induction l with
  | nil =>
      intro k
      constructor <;> intro p hp <;> simp [transformRecipes] at hp
  | cons d rest ih =>
      intro k
      by_cases h : d.recipe_id.truthy = true
      · rw [transformRecipes_cons_pos d rest k h]
        have hk := ih (k + d.ingredients.length + d.steps.length)
        constructor
        · intro p hp
          rw [List.map_append, List.mem_append, normIngredients_map_pk,
            List.mem_range'_1] at hp
          rcases hp with hp | hp
          · simp only [keysUsed, h, if_pos]
            omega
          · have := hk.1 p hp
            simp only [keysUsed, h, if_pos]
            omega
        · intro p hp
          rw [List.map_append, List.mem_append, normSteps_map_pk,
            List.mem_range'_1] at hp
          rcases hp with hp | hp
          · simp only [keysUsed, h, if_pos]
            omega
          · have := hk.2 p hp
            simp only [keysUsed, h, if_pos]
            omega
      · rw [transformRecipes_cons_neg d rest k h]
        have hk := ih k
        constructor
        · intro p hp
          have := hk.1 p hp
          simp only [keysUsed, h, if_neg]
          omega
        · intro p hp
          have := hk.2 p hp
          simp only [keysUsed, h, if_neg]
          omega

lemma transformRecipes_pk_nodup (l : List RecipeDoc) : ∀ k,
    ((transformRecipes l k).2.1.map (fun r => r.ingredient_pk_id)
      ++ (transformRecipes l k).2.2.map (fun r => r.step_pk_id)).Nodup := by
  induction l with
  | nil => intro k; simp [transformRecipes]
  | cons d rest ih =>
      intro k
      by_cases h : d.recipe_id.truthy = true
      · rw [transformRecipes_cons_pos d rest k h]
        have hb :=
          transformRecipes_pk_bounds rest
            (k + d.ingredients.length + d.steps.length)
        have hrest := ih (k + d.ingredients.length + d.steps.length)
        rw [List.nodup_append] at hrest
        simp only [List.map_append, normIngredients_map_pk, normSteps_map_pk]
        rw [List.nodup_append, List.nodup_append, List.nodup_append]
        refine ⟨⟨List.nodup_range' k d.ingredients.length, hrest.1, ?_⟩,
          ⟨List.nodup_range' (k + d.ingredients.length) d.steps.length,
           hrest.2.1, ?_⟩, ?_⟩
        · intro p hp hq
          rw [List.mem_range'_1] at hp
          have := (hb.1 p hq)
          omega
        · intro p hp hq
          rw [List.mem_range'_1] at hp
          have := (hb.2 p hq)
          omega
        · intro p hp hq
          rw [List.mem_append, List.mem_range'_1] at hp
          rw [List.mem_append, List.mem_range'_1] at hq
          rcases hp with hp | hp <;> rcases hq with hq | hq
          · omega
          · have := hb.2 p hq
            omega
          · have := hb.1 p hp
            omega
          · exact hrest.2.2 hp hq
      · rw [transformRecipes_cons_neg d rest k h]
        exact ih k

/-- C3: each retained recipe document (truthy `recipe_id`) with N embedded
ingredients and M embedded steps contributes, in document order, exactly N
Ingredient rows and M Step rows, all carrying the parent's `recipe_id` as
foreign key, and the surrogate keys of all Ingredient and Step rows of the
run are pairwise distinct. -/
theorem c3_normalizer_roundtrip (recipes : List RecipeDoc)
    (inters : List InteractionDoc) :
    (transform_and_normalize recipes inters).2.1.map (fun r => r.recipe_id)
      = (recipes.filter (fun d => d.recipe_id.truthy)).flatMap
          (fun d => List.replicate d.ingredients.length d.recipe_id) ∧
    (transform_and_normalize recipes inters).2.2.1.map (fun r => r.recipe_id)
      = (recipes.filter (fun d => d.recipe_id.truthy)).flatMap
          (fun d => List.replicate d.steps.length d.recipe_id) ∧
    ((transform_and_normalize recipes inters).2.1.map
        (fun r => r.ingredient_pk_id)
      ++ (transform_and_normalize recipes inters).2.2.1.map
        (fun r => r.step_pk_id)).Nodup :=
  ⟨transformRecipes_ing_rids recipes 0, transformRecipes_step_rids recipes 0,
   transformRecipes_pk_nodup recipes 0⟩

lemma transformRecipes_skip (d : RecipeDoc)
    (h : ¬ d.recipe_id.truthy = true) (pre post : List RecipeDoc) : ∀ k,
    transformRecipes (pre ++ d :: post) k = transformRecipes (pre ++ post) k := by
  induction pre with
  | nil =>
      intro k
      exact transformRecipes_cons_neg d post k h
  | cons p rest ih =>
      intro k
      by_cases hp : p.recipe_id.truthy = true
      · rw [List.cons_append, List.cons_append,
          transformRecipes_cons_pos p _ k hp, transformRecipes_cons_pos p _ k hp,
          ih (k + p.ingredients.length + p.steps.length)]
      · rw [List.cons_append, List.cons_append,
          transformRecipes_cons_neg p _ k hp, transformRecipes_cons_neg p _ k hp,
          ih k]

/-- C4: a recipe document with a falsy (missing or empty) `recipe_id` is
skipped without effect: the whole run produces exactly the outputs of the
run on the input with that document removed, so it contributes no row to
any record set and the remaining documents are all still processed. -/
theorem c4_skip_missing_recipe_id (d : RecipeDoc)
    (pre post : List RecipeDoc) (inters : List InteractionDoc)
    (h : ¬ d.recipe_id.truthy = true) :
    transform_and_normalize (pre ++ d :: post) inters
      = transform_and_normalize (pre ++ post) inters := by
  unfold transform_and_normalize
  rw [transformRecipes_skip d h pre post 0]

/-- Witness for C4: a document whose `recipe_id` is the empty string is
dropped from a concrete two-document run. -/
theorem c4_skip_missing_recipe_id_witness :
    transform_and_normalize
        [{ recipe_id := Value.vstr "R1", name := Value.vstr "Rice",
           serves := Value.vnum 2, prep_time_minutes := Value.vnum 10,
           cook_time_minutes := Value.vnum 20, difficulty := Value.vstr "Easy",
           created_at := Ts.null, ingredients := [], steps := [] },
         { recipe_id := Value.vstr "", name := Value.vstr "NoId",
           serves := Value.null, prep_time_minutes := Value.null,
           cook_time_minutes := Value.null, difficulty := Value.null,
           created_at := Ts.null,
           ingredients := [{ name := Value.vstr "Salt",
                             quantity := Value.vnum 1,
                             unit := Value.vstr "tsp" }], steps := [] }] []
      = transform_and_normalize
          [{ recipe_id := Value.vstr "R1", name := Value.vstr "Rice",
             serves := Value.vnum 2, prep_time_minutes := Value.vnum 10,
             cook_time_minutes := Value.vnum 20,
             difficulty := Value.vstr "Easy", created_at := Ts.null,
             ingredients := [], steps := [] }] [] :=
  c4_skip_missing_recipe_id
    { recipe_id := Value.vstr "", name := Value.vstr "NoId",
      serves := Value.null, prep_time_minutes := Value.null,
      cook_time_minutes := Value.null, difficulty := Value.null,
      created_at := Ts.null,
      ingredients := [{ name := Value.vstr "Salt", quantity := Value.vnum 1,
                        unit := Value.vstr "tsp" }], steps := [] }
    [{ recipe_id := Value.vstr "R1", name := Value.vstr "Rice",
       serves := Value.vnum 2, prep_time_minutes := Value.vnum 10,
       cook_time_minutes := Value.vnum 20, difficulty := Value.vstr "Easy",
       created_at := Ts.null, ingredients := [], steps := [] }] [] []
    (by decide)

/-- Rounding half to even of a rational to an integer (the rounding of the
Python built-in `round` and numpy `.round`, idealized to exact rationals). -/
def halfEvenRound (q : ℚ) : ℤ :=
  if q - (⌊q⌋ : ℚ) < 1/2 then ⌊q⌋
  else if (1 : ℚ)/2 < q - (⌊q⌋ : ℚ) then ⌊q⌋ + 1
  else if Even ⌊q⌋ then ⌊q⌋ else ⌊q⌋ + 1

/-- `round(x, 2)`: half-to-even rounding at the second decimal place. -/
def roundTo2 (q : ℚ) : ℚ := (halfEvenRound (q * 100) : ℚ) / 100

/-- One `recipe.csv` row as loaded by the analytics script;
`prep_time_minutes` after `pd.to_numeric(errors='coerce')` is numeric or
`NaN` (modelled `none`); `difficulty` is a string or `NaN`. -/
structure RRow where
  recipe_id : String
  name : String
  prep_time_minutes : Option ℚ
  difficulty : Option String
deriving DecidableEq, Repr

/-- One `interactions.csv` row (the fields the insights read); `rating`
after `pd.to_numeric(errors='coerce')` is numeric or `NaN`. -/
structure IRow where
  user_id : String
  recipe_id : String
  interaction_type : String
  rating : Option ℚ
deriving DecidableEq, Repr

/-- One `ingredients.csv` row as prepared by `load_and_merge_data`:
`name_clean` is `str(name).strip()`, computed at load (line 31). -/
structure IngRow where
  recipe_id : String
  name_clean : String
deriving DecidableEq, Repr

/-- One `steps.csv` row (the field insight 8 reads). -/
structure SRow where
  recipe_id : String
deriving DecidableEq, Repr

/-- Lexicographic code-point comparison of character lists (the string
order pandas sorts group keys by). -/
def charListLe : List Char → List Char → Bool
| [], _ => true
| _ :: _, [] => false
| a :: as, b :: bs =>
  if a.toNat < b.toNat then true
  else if b.toNat < a.toNat then false
  else charListLe as bs

/-- Lexicographic order on strings via their character lists. -/
def keyLe (a b : String) : Bool := charListLe a.data b.data

/-- Strict lexicographic order on strings. -/
def keyLt (a b : String) : Bool := !(keyLe b a)

/-- `keyLe` as a relation, for sorting. -/
def keyLeR : String → String → Prop := fun a b => keyLe a b = true

instance : DecidableRel keyLeR := fun a b =>
  inferInstanceAs (Decidable (keyLe a b = true))

lemma charListLe_total : ∀ as bs,
    charListLe as bs = true ∨ charListLe bs as = true := by
  intro as
  induction as with
  | nil => intro bs; exact Or.inl rfl
  | cons a as ih =>
      intro bs
      cases bs with
      | nil => exact Or.inr rfl
      | cons b bs =>
          by_cases h1 : a.toNat < b.toNat
          · left
            simp [charListLe, h1]
          · by_cases h2 : b.toNat < a.toNat
            · right
              simp [charListLe, h2]
            · rcases ih bs with h | h
              · left
                simp [charListLe, h1, h2, h]
              · right
                simp [charListLe, h1, h2, h]

lemma charListLe_trans : ∀ as bs cs, charListLe as bs = true →
    charListLe bs cs = true → charListLe as cs = true := by
  intro as
  induction as with
  | nil => intro bs cs _ _; rfl
  | cons a as ih =>
      intro bs cs hab hbc
      cases bs with
      | nil => simp [charListLe] at hab
      | cons b bs =>
          cases cs with
          | nil => simp [charListLe] at hbc
          | cons c cs =>
              simp only [charListLe] at hab hbc ⊢
              split_ifs at hab hbc ⊢ with h1 h2 h3 h4 h5 h6 <;>
                first
                | rfl
                | omega
                | (exact ih bs cs hab hbc)

lemma charListLe_antisymm : ∀ as bs, charListLe as bs = true →
    charListLe bs as = true → as = bs := by
  intro as
  induction as with
  | nil =>
      intro bs _ hba
      cases bs with
      | nil => rfl
      | cons b bs => simp [charListLe] at hba
  | cons a as ih =>
      intro bs hab hba
      cases bs with
      | nil => simp [charListLe] at hab
      | cons b bs =>
          simp only [charListLe] at hab hba
          split_ifs at hab hba with h1 h2 <;> try omega
          · have hn : a.toNat = b.toNat := by omega
            have hc : a = b := Char.eq_of_val_eq (UInt32.toNat.inj hn)
            rw [hc, ih bs hab hba]

lemma keyLe_total (a b : String) : keyLe a b = true ∨ keyLe b a = true :=
  charListLe_total a.data b.data

lemma keyLe_trans {a b c : String} (hab : keyLe a b = true)
    (hbc : keyLe b c = true) : keyLe a c = true :=
  charListLe_trans a.data b.data c.data hab hbc

lemma keyLe_antisymm {a b : String} (hab : keyLe a b = true)
    (hba : keyLe b a = true) : a = b := by
  have hd := charListLe_antisymm a.data b.data hab hba
  cases a
  cases b
  exact congrArg String.mk hd

lemma keyLt_of_le_of_ne {a b : String} (hle : keyLe a b = true)
    (hne : a ≠ b) : keyLt a b = true := by
  unfold keyLt
  cases hba : keyLe b a
  · rfl
  · exact absurd (keyLe_antisymm hle hba) hne

instance : IsTotal String keyLeR := ⟨keyLe_total⟩

instance : IsTrans String keyLeR := ⟨fun _ _ _ => keyLe_trans⟩

/-- The group keys of `df.groupby(col)`: the distinct values in ascending
lexicographic order (pandas sorts group keys). -/
def sortedKeys (ids : List String) : List String :=
  List.insertionSort keyLeR ids.dedup

/-- `groupby(col).size()`: each distinct key with its row count, keys
ascending. -/
def gbSize (ids : List String) : List (String × Nat) :=
  (sortedKeys ids).map (fun k => (k, ids.count k))

/-- `Series.mean()` over exact rationals (`0/0 = 0` only feeds the
degenerate branch below, which pandas reports as NaN anyway). -/
def meanQ (xs : List ℚ) : ℚ := xs.sum / (xs.length : ℚ)

/-- Sum of squared deviations of a series (the unnormalized variance). -/
def sumSq (xs : List ℚ) : ℚ := (xs.map (fun x => (x - meanQ xs) ^ 2)).sum

/-- Sum of products of deviations (the unnormalized covariance). -/
def covSum (xs ys : List ℚ) : ℚ :=
  ((xs.zip ys).map (fun p => (p.1 - meanQ xs) * (p.2 - meanQ ys))).sum

/-- `DataFrame.corr` between two equal-length series: `none` is the NaN
sentinel, returned exactly when a variance vanishes (this subsumes the
empty and single-row frames); otherwise the Pearson value is
`cov / sqrt(vx * vy)`, represented exactly by the pair `(cov, vx * vy)`
because the square root leaves the rationals. -/
def corrQ (xs ys : List ℚ) : Option (ℚ × ℚ) :=
  if sumSq xs * sumSq ys = 0 then none
  else some (covSum xs ys, sumSq xs * sumSq ys)

/-- `likes_per_recipe` joined back per recipe row: total LIKE interactions
for a recipe id, ids without likes counting 0 (the left merge + fillna). -/
def likeCount (inters : List IRow) (rid : String) : Nat :=
  ((inters.filter (fun i => i.interaction_type == "LIKE")).map
    (fun i => i.recipe_id)).count rid

/-- The `prep_time_minutes` series of insight 4. The `fillna(0)` applied to
the merged frame zero-fills NaN prep times as well as missing like counts. -/
def prepSeries (recipes : List RRow) : List ℚ :=
  recipes.map (fun r => r.prep_time_minutes.getD 0)

/-- The `total_likes` series of insight 4, one value per recipe row. -/
def likeSeries (recipes : List RRow) (inters : List IRow) : List ℚ :=
  recipes.map (fun r => (likeCount inters r.recipe_id : ℚ))

/-- Insight 4: Pearson correlation between prep time and like count. -/
def insight4 (recipes : List RRow) (inters : List IRow) : Option (ℚ × ℚ) :=
  corrQ (prepSeries recipes) (likeSeries recipes inters)

/-- The recipe ids of the VIEW-type interactions, in interaction order. -/
def viewIdList (inters : List IRow) : List String :=
  (inters.filter (fun i => i.interaction_type == "VIEW")).map
    (fun i => i.recipe_id)

/-- The VIEW count of a recipe id over the interaction set. -/
def viewCount (inters : List IRow) (rid : String) : Nat :=
  (viewIdList inters).count rid

/-- The comparison used by `sort_values(by=count, ascending=False)`. -/
def countGe (a b : String × String × Nat) : Prop := b.2.2 ≤ a.2.2

instance : DecidableRel countGe := fun a b =>
  inferInstanceAs (Decidable (b.2.2 ≤ a.2.2))

instance : IsTotal (String × String × Nat) countGe :=
  ⟨fun a b => Nat.le_total b.2.2 a.2.2⟩

instance : IsTrans (String × String × Nat) countGe :=
  ⟨fun _ _ _ hab hbc => Nat.le_trans hbc hab⟩

/-- The merged rows `(recipe_id, name, total_views)` of insight 5 before
sorting: the VIEW counts per recipe id (group keys ascending), inner-merged
with the recipe names; pandas preserves the left frame's key order, and in
a normalized recipe set the ids are unique, so the first matching recipe
row is the matching row. -/
def mergedViews (recipes : List RRow) (inters : List IRow) :
    List (String × String × Nat) :=
  (gbSize (viewIdList inters)).filterMap (fun p =>
    (recipes.find? (fun r => r.recipe_id == p.1)).map
      (fun r => (p.1, r.name, p.2)))

/-- The ranked rows of insight 5: the merged rows stably sorted by count
descending (`sort_values(ascending=False)` keeps ties in incoming order). -/
def rankedViews (recipes : List RRow) (inters : List IRow) :
    List (String × String × Nat) :=
  List.insertionSort countGe (mergedViews recipes inters)

/-- Insight 5: the `head(5)` of the ranked views as the name-to-count
association, in rank order (the insertion order of the result dict). -/
def insight5 (recipes : List RRow) (inters : List IRow) :
    List (String × Nat) :=
  ((rankedViews recipes inters).take 5).map (fun t => (t.2.1, t.2.2))

/-- Insight 8: mean of `steps_df.groupby('recipe_id').size()` rounded to 2
decimals; `none` is the NaN of the empty mean. -/
def insight8 (steps : List SRow) : Option ℚ :=
  if (gbSize (steps.map (fun s => s.recipe_id))).length = 0 then none
  else some (roundTo2
    ((((gbSize (steps.map (fun s => s.recipe_id))).map
        (fun p => (p.2 : ℚ))).sum)
      / ((gbSize (steps.map (fun s => s.recipe_id))).length : ℚ)))

/-- Insight 10: percentage of distinct recipes with a COOK_ATTEMPT.
`attempted_recipes / total_recipes` raises `ZeroDivisionError` when the
recipe set is empty. -/
def insight10 (recipes : List RRow) (inters : List IRow) :
    Except String ℚ :=
  if recipes.length = 0 then Except.error "ZeroDivisionError"
  else Except.ok (roundTo2
    (((((inters.filter (fun i => i.interaction_type == "COOK_ATTEMPT")).map
          (fun i => i.recipe_id)).dedup.length : ℚ)
        / (recipes.length : ℚ)) * 100))

/-- `drop_duplicates(subset=['recipe_id', 'user_id'])`: keep the first
occurrence of each (recipe, user) pair, preserving order. -/
def dedupByUserRecipe : List IRow → List IRow
| [] => []
| a :: t =>
  a :: dedupByUserRecipe (t.filter (fun b =>
    !(b.recipe_id == a.recipe_id && b.user_id == a.user_id)))
termination_by l => l.length
decreasing_by
  simp only [List.length_cons]
  exact Nat.lt_succ_of_le (List.length_filter_le _ _)

/-- The deduplicated LIKE rows of insight 11. -/
def uniqueLikeRows (inters : List IRow) : List IRow :=
  dedupByUserRecipe (inters.filter (fun i => i.interaction_type == "LIKE"))

/-- The recipe ids of the deduplicated LIKE rows, grouped by insight 11. -/
def likeIdList (inters : List IRow) : List String :=
  (uniqueLikeRows inters).map (fun i => i.recipe_id)

/-- The merged rows `(recipe_id, name, unique_likes)` of insight 11 before
sorting: the recipes inner-merged with the per-recipe deduplicated like
counts (pandas preserves the left frame's — the recipes' — key order; the
right keys, group keys, are unique). -/
def mergedLikes (recipes : List RRow) (inters : List IRow) :
    List (String × String × Nat) :=
  recipes.filterMap (fun r =>
    ((gbSize (likeIdList inters)).find? (fun p => p.1 == r.recipe_id)).map
      (fun p => (r.recipe_id, r.name, p.2)))

/-- The ranked rows of insight 11: the merged rows stably sorted by count
descending. -/
def rankedUniqueLikes (recipes : List RRow) (inters : List IRow) :
    List (String × String × Nat) :=
  List.insertionSort countGe (mergedLikes recipes inters)

/-- Insight 11: the `head(1)` of the ranked unique likes, as name-to-count. -/
def insight11 (recipes : List RRow) (inters : List IRow) :
    List (String × Nat) :=
  ((rankedUniqueLikes recipes inters).take 1).map (fun t => (t.2.1, t.2.2))

/-- Number of distinct users with a LIKE interaction on the given recipe. -/
def distinctLikers (inters : List IRow) (rid : String) : Nat :=
  ((inters.filter (fun i =>
      i.interaction_type == "LIKE" && i.recipe_id == rid)).map
    (fun i => i.user_id)).toFinset.card

/-- Keep-first deduplication of a value series (the key order of a pandas
hash groupby, which `value_counts` counts over). -/
def dedupFirst : List String → List String
| [] => []
| a :: t => a :: (dedupFirst t).filter (fun b => !(b == a))

/-- The comparison of `sort_values(ascending=False)` on a count series. -/
def cntGe2 (a b : String × Nat) : Prop := b.2 ≤ a.2

instance : DecidableRel cntGe2 := fun a b =>
  inferInstanceAs (Decidable (b.2 ≤ a.2))

/-- `Series.value_counts()`: each distinct value with its count, sorted by
count descending; keys come in first-appearance order and the stable sort
keeps ties in that order (the callers exclude NaN before counting). -/
def valueCounts (xs : List String) : List (String × Nat) :=
  List.insertionSort cntGe2 ((dedupFirst xs).map (fun k => (k, xs.count k)))

/-- Insight 1: top-5 most frequent trimmed ingredient names
(`value_counts().head(5)`). A dict-valued pandas reduction: no raising
operation, the empty frame yields the empty dict. -/
def insight1 (ings : List IngRow) : List (String × Nat) :=
  (valueCounts (ings.map (fun g => g.name_clean))).take 5

/-- Insight 2: mean prep time rounded to 2 decimals. `Series.mean()` skips
NaN in numerator and denominator and returns the NaN sentinel (`none`) when
no parseable value remains. -/
def insight2 (recipes : List RRow) : Option ℚ :=
  if (recipes.filterMap (fun r => r.prep_time_minutes)).length = 0 then none
  else some (roundTo2 (meanQ (recipes.filterMap (fun r => r.prep_time_minutes))))

/-- Insight 3: percentage distribution of `difficulty`
(`value_counts(normalize=True).mul(100).round(2)`); `value_counts` drops
NaN, and an all-NaN column yields the empty dict. -/
def insight3 (recipes : List RRow) : List (String × ℚ) :=
  (valueCounts (recipes.filterMap (fun r => r.difficulty))).map (fun p =>
    (p.1, roundTo2 ((p.2 : ℚ)
      / ((recipes.filterMap (fun r => r.difficulty)).length : ℚ) * 100)))

/-- The COOK_ATTEMPT interactions. -/
def cookRows (inters : List IRow) : List IRow :=
  inters.filter (fun i => i.interaction_type == "COOK_ATTEMPT")

/-- The mean COOK_ATTEMPT rating of a recipe id, rounded to 2 decimals
(`groupby('recipe_id')['rating'].mean().round(2)`), NaN (`none`) when the
group holds only NaN ratings. -/
def avgRating (inters : List IRow) (rid : String) : Option ℚ :=
  let rs := ((cookRows inters).filter (fun i => i.recipe_id == rid)).filterMap
    (fun i => i.rating)
  if rs.length = 0 then none else some (roundTo2 (meanQ rs))

/-- The recipe ids whose mean COOK_ATTEMPT rating is at least 4.0 (a NaN
mean compares false and is excluded, as in pandas). -/
def highRatedIds (inters : List IRow) : List String :=
  (sortedKeys ((cookRows inters).map (fun i => i.recipe_id))).filter
    (fun rid => match avgRating inters rid with
                | some q => decide (4 ≤ q)
                | none => false)

/-- Insight 6: top-5 trimmed ingredient names restricted to high-rated
recipes (`isin(high_rated_recipes)` over `ingredient_recipe_df`, whose rows
are the ingredient rows). Dict-valued, no raising operation. -/
def insight6 (ings : List IngRow) (inters : List IRow) :
    List (String × Nat) :=
  (valueCounts ((ings.filter (fun g =>
      decide (g.recipe_id ∈ highRatedIds inters))).map
    (fun g => g.name_clean))).take 5

/-- The rows of `recipe_interaction_df` that insight 7 reads: the left
merge of recipes with interactions on `recipe_id` gives one row per
matching (recipe, interaction) pair carrying `(difficulty,
interaction_type, rating)`, and recipes without interactions keep one row
with NaN interaction columns. -/
def riRows (recipes : List RRow) (inters : List IRow) :
    List (Option String × Option String × Option ℚ) :=
  recipes.flatMap (fun r =>
    if (inters.filter (fun i => i.recipe_id == r.recipe_id)).isEmpty then
      [(r.difficulty, none, none)]
    else (inters.filter (fun i => i.recipe_id == r.recipe_id)).map
      (fun i => (r.difficulty, some i.interaction_type, i.rating)))

/-- The comparison of `sort_values(ascending=False)` on a rounded-mean
series (only applied to the NaN-free part). -/
def meanGe (a b : String × Option ℚ) : Prop := b.2.getD 0 ≤ a.2.getD 0

instance : DecidableRel meanGe := fun a b =>
  inferInstanceAs (Decidable (b.2.getD 0 ≤ a.2.getD 0))

/-- Insight 7: mean COOK_ATTEMPT rating per difficulty, rounded to 2
decimals, descending by mean (`groupby('difficulty')` drops NaN difficulty
keys; a group with only NaN ratings keeps a NaN mean, which
`sort_values(ascending=False)` places last). Dict-valued, no raising
operation. -/
def insight7 (recipes : List RRow) (inters : List IRow) :
    List (String × Option ℚ) :=
  let ca := (riRows recipes inters).filter
    (fun t => t.2.1 == some "COOK_ATTEMPT")
  let means := (sortedKeys (ca.filterMap (fun t => t.1))).map (fun d =>
    (d, let rs := (ca.filter (fun t => t.1 == some d)).filterMap
          (fun t => t.2.2)
        if rs.length = 0 then none else some (roundTo2 (meanQ rs))))
  List.insertionSort meanGe (means.filter (fun p => p.2.isSome))
    ++ means.filter (fun p => !p.2.isSome)

/-- Insight 9: top-5 users by total interaction count
(`value_counts().head(5)`). Dict-valued, no raising operation. -/
def insight9 (inters : List IRow) : List (String × Nat) :=
  (valueCounts (inters.map (fun i => i.user_id))).take 5

lemma sortedKeys_perm (ids : List String) :
    List.Perm (sortedKeys ids) ids.dedup :=
  List.perm_insertionSort _ _

lemma gbSize_length (ids : List String) :
    (gbSize ids).length = ids.dedup.length := by
  unfold gbSize
  rw [List.length_map]
  exact (sortedKeys_perm ids).length_eq

/-- C5 counterexample: insight 10 raises `ZeroDivisionError` on an empty
recipe record set, refuting the claim that every insight computation
returns a defined sentinel rather than raising. -/
theorem c5_insight10_zero_recipes_cex :
    insight10 [] [{ user_id := "U1", recipe_id := "R1",
                    interaction_type := "COOK_ATTEMPT",
                    rating := some 5 }]
      = Except.error "ZeroDivisionError" := rfl

/-- C5 (amended): every insight computation returns a defined sentinel
rather than raising, with the single exception of insight 10: insight 10
raises `ZeroDivisionError` exactly when the recipe record set is empty and
returns the defined rounded percentage otherwise. Insight 4's Pearson
correlation returns the NaN sentinel exactly when either series has zero
variance; insights 2 and 8 return the NaN sentinel exactly when their
eligible subset is empty; and the dict-valued insights 1, 3, 5, 6, 7, 9
and 11 are pandas reductions with no raising operation — they are total
functions here, with the empty record sets yielding the empty result. -/
theorem c5_insights_sentinel_amended (recipes : List RRow)
    (ings : List IngRow) (inters : List IRow) (steps : List SRow) :
    (recipes ≠ [] → ∃ q, insight10 recipes inters = Except.ok q) ∧
    (insight10 [] inters = Except.error "ZeroDivisionError") ∧
    (insight4 recipes inters = none ↔
      sumSq (prepSeries recipes) * sumSq (likeSeries recipes inters) = 0) ∧
    (insight2 recipes = none ↔
      recipes.filterMap (fun r => r.prep_time_minutes) = []) ∧
    (insight8 steps = none ↔ steps = []) ∧
    (insight1 ings).length ≤ 5 ∧ (insight6 ings inters).length ≤ 5 ∧
    (insight9 inters).length ≤ 5 ∧
    insight1 [] = [] ∧ insight3 [] = [] ∧ insight5 [] [] = [] ∧
    insight6 [] [] = [] ∧ insight7 [] [] = [] ∧ insight9 [] = [] ∧
    insight11 [] [] = [] := by
  refine ⟨?_, rfl, ?_, ?_, ?_, List.length_take_le _ _, List.length_take_le _ _,
    List.length_take_le _ _, rfl, rfl, rfl, rfl, rfl, rfl, rfl⟩
  · intro h
    have hlen : ¬ recipes.length = 0 := by
      simpa [List.length_eq_zero] using h
    simp only [insight10, if_neg hlen]
    exact ⟨_, rfl⟩
  · unfold insight4 corrQ
    split_ifs with h <;> simp [h]
  · unfold insight2
    split_ifs with h <;> simp only [List.length_eq_zero] at h <;> simp [h]
  · unfold insight8
    split_ifs with h <;>
      rw [gbSize_length, List.length_eq_zero, List.dedup_eq_nil,
        List.map_eq_nil_iff] at h <;> simp [h]

/-- Witness for C5 at one recipe and no interactions: insight 10 is defined
and insight 4 is the NaN sentinel (the like series is constant zero). -/
theorem c5_insights_sentinel_witness :
    (∃ q, insight10 [{ recipe_id := "R1", name := "Rice",
                       prep_time_minutes := some 10, difficulty := none }] []
            = Except.ok q) ∧
    insight4 [{ recipe_id := "R1", name := "Rice",
                prep_time_minutes := some 10, difficulty := none }] [] = none :=
  ⟨(c5_insights_sentinel_amended _ [] _ []).1 (by decide),
   (c5_insights_sentinel_amended _ [] _ []).2.2.1.mpr
     (by norm_num [sumSq, meanQ, prepSeries, likeSeries, likeCount])⟩

lemma gbSize_sizes_sum (ids : List String) :
    ((gbSize ids).map (fun p => p.2)).sum = ids.length := by
  have h1 : (gbSize ids).map (fun p => p.2)
      = (sortedKeys ids).map (fun k => ids.count k) := by
    unfold gbSize
    rw [List.map_map]
    rfl
  rw [h1, ((sortedKeys_perm ids).map (fun k => ids.count k)).sum_eq,
    List.sum_map_count_dedup_eq_length]

/-- C7: insight 8 equals the total number of Step rows divided by the
number of distinct recipe ids appearing in the Step set (not the total
recipe count), rounded to two decimals; it reads the steps set alone, so
recipes without steps cannot affect it. -/
theorem c7_insight8_distinct_denominator (steps : List SRow)
    (h : steps ≠ []) :
    insight8 steps = some (roundTo2 ((steps.length : ℚ)
      / ((steps.map (fun s => s.recipe_id)).dedup.length : ℚ))) := by
  have hids : steps.map (fun s => s.recipe_id) ≠ [] := by
    simpa [List.map_eq_nil_iff] using h
  have hne : ¬ (gbSize (steps.map (fun s => s.recipe_id))).length = 0 := by
    rw [gbSize_length, List.length_eq_zero, List.dedup_eq_nil]
    exact hids
  have hcast : ((gbSize (steps.map (fun s => s.recipe_id))).map
        (fun p => (p.2 : ℚ))).sum
      = ((((gbSize (steps.map (fun s => s.recipe_id))).map
            (fun p => p.2)).sum : ℕ) : ℚ) := by
    rw [Nat.cast_list_sum, List.map_map]
    rfl
  unfold insight8
  rw [if_neg hne, hcast, gbSize_sizes_sum, gbSize_length, List.length_map]

/-- Three concrete step rows over two distinct recipe ids. -/
def witnessSteps : List SRow :=
  [{ recipe_id := "R1" }, { recipe_id := "R1" }, { recipe_id := "R2" }]

/-- Witness for C7: three step rows over two distinct recipes average to
3/2 steps per recipe. -/
theorem c7_insight8_witness :
    insight8 witnessSteps = some (roundTo2 ((witnessSteps.length : ℚ)
      / ((witnessSteps.map (fun s => s.recipe_id)).dedup.length : ℚ))) :=
  c7_insight8_distinct_denominator witnessSteps (by decide)

/-- Descending count with ties broken by ascending recipe id (first
component). -/
def lexView (a b : String × String × Nat) : Prop :=
  b.2.2 < a.2.2 ∨ (a.2.2 = b.2.2 ∧ keyLt a.1 b.1 = true)

lemma orderedInsert_lex (a : String × String × Nat) :
    ∀ l : List (String × String × Nat), l.Sorted lexView →
      (∀ b ∈ l, keyLt a.1 b.1 = true) →
      (List.orderedInsert countGe a l).Sorted lexView := by
  intro l
  induction l with
  | nil =>
      intro _ _
      simp [List.orderedInsert]
  | cons b t ih =>
      intro hl hid
      rw [List.sorted_cons] at hl
      by_cases h : countGe a b
      · have hpos : List.orderedInsert countGe a (b :: t) = a :: b :: t := by
          simp only [List.orderedInsert, if_pos h]
        rw [hpos, List.sorted_cons]
        refine ⟨?_, List.sorted_cons.mpr hl⟩
        intro c hc
        rcases List.mem_cons.mp hc with rfl | hct
        · rcases Nat.eq_or_lt_of_le h with heq | hlt
          · exact Or.inr ⟨heq.symm, hid c (List.mem_cons_self c t)⟩
          · exact Or.inl hlt
        · rcases hl.1 c hct with hlt | ⟨heq, _⟩
          · exact Or.inl (Nat.lt_of_lt_of_le hlt h)
          · have hc2 : c.2.2 ≤ a.2.2 := heq ▸ h
            rcases Nat.eq_or_lt_of_le hc2 with heq2 | hlt2
            · exact Or.inr ⟨heq2.symm, hid c (List.mem_cons_of_mem b hct)⟩
            · exact Or.inl hlt2
      · have hne : List.orderedInsert countGe a (b :: t)
            = b :: List.orderedInsert countGe a t := by
          simp only [List.orderedInsert, if_neg h]
        rw [hne, List.sorted_cons]
        constructor
        · intro c hc
          rcases (List.mem_orderedInsert countGe).mp hc with rfl | hct
          · exact Or.inl (Nat.lt_of_not_le h)
          · exact hl.1 c hct
        · exact ih hl.2 (fun c hc => hid c (List.mem_cons_of_mem b hc))

lemma insertionSort_lex : ∀ l : List (String × String × Nat),
    l.Pairwise (fun x y => keyLt x.1 y.1 = true) →
    (List.insertionSort countGe l).Sorted lexView := by
  intro l
  induction l with
  | nil => intro _; simp [List.insertionSort]
  | cons a t ih =>
      intro hp
      rw [List.pairwise_cons] at hp
      simp only [List.insertionSort]
      exact orderedInsert_lex a _ (ih hp.2)
        (fun b hb => hp.1 b ((List.perm_insertionSort countGe t).subset hb))

lemma sortedKeys_pairwise_lt (ids : List String) :
    (sortedKeys ids).Pairwise (fun a b => keyLt a b = true) := by
  have hs : (sortedKeys ids).Sorted keyLeR :=
    List.sorted_insertionSort keyLeR ids.dedup
  have hn : (sortedKeys ids).Nodup :=
    ((sortedKeys_perm ids).nodup_iff).mpr ids.nodup_dedup
  exact (hs.and hn).imp (fun h => keyLt_of_le_of_ne h.1 h.2)

lemma mem_sortedKeys (ids : List String) (k : String) :
    k ∈ sortedKeys ids ↔ k ∈ ids := by
  rw [(sortedKeys_perm ids).mem_iff, List.mem_dedup]

lemma gbSize_pairwise (ids : List String) :
    (gbSize ids).Pairwise
      (fun p q : String × Nat => keyLt p.1 q.1 = true) := by
  unfold gbSize
  rw [List.pairwise_map]
  exact sortedKeys_pairwise_lt ids

lemma mem_gbSize (ids : List String) (p : String × Nat) :
    p ∈ gbSize ids ↔ p.1 ∈ ids ∧ p.2 = ids.count p.1 := by
  unfold gbSize
  rw [List.mem_map]
  constructor
  · rintro ⟨k, hk, rfl⟩
    exact ⟨(mem_sortedKeys ids k).mp hk, rfl⟩
  · rintro ⟨h1, h2⟩
    refine ⟨p.1, (mem_sortedKeys ids p.1).mpr h1, ?_⟩
    rw [← h2]

lemma find?_key_unique {α : Type} (key : α → String) :
    ∀ (l : List α), (l.map key).Nodup → ∀ (k : String) (x : α),
      (l.find? (fun a => key a == k) = some x ↔ x ∈ l ∧ key x = k) := by
  intro l
  induction l with
  | nil => intro _ k x; simp
  | cons a t ih =>
      intro hn k x
      rw [List.map_cons, List.nodup_cons] at hn
      by_cases ha : (key a == k) = true
      · have hfc : (a :: t).find? (fun b => key b == k) = some a := by
          simp [List.find?_cons, ha]
        rw [hfc]
        have hak : key a = k := by simpa using ha
        constructor
        · intro hsome
          have hax : a = x := by simpa using hsome
          subst hax
          exact ⟨List.mem_cons_self a t, hak⟩
        · rintro ⟨hmem, hkey⟩
          rcases List.mem_cons.mp hmem with rfl | hmem'
          · rfl
          · exfalso
            have hx : key x ∈ t.map key := List.mem_map_of_mem key hmem'
            rw [hkey, ← hak] at hx
            exact hn.1 hx
      · have hfalse : (key a == k) = false := by
          simpa using ha
        have hfc : (a :: t).find? (fun b => key b == k)
            = t.find? (fun b => key b == k) := by
          simp [List.find?_cons, hfalse]
        rw [hfc, ih hn.2 k x]
        constructor
        · rintro ⟨hm, hk⟩
          exact ⟨List.mem_cons_of_mem a hm, hk⟩
        · rintro ⟨hm, hk⟩
          rcases List.mem_cons.mp hm with rfl | hm'
          · exact absurd (by simpa using hk) ha
          · exact ⟨hm', hk⟩

lemma mergedViews_pairwise (recipes : List RRow) (inters : List IRow) :
    (mergedViews recipes inters).Pairwise
      (fun x y => keyLt x.1 y.1 = true) := by
  unfold mergedViews
  rw [List.pairwise_filterMap]
  refine (gbSize_pairwise (viewIdList inters)).imp ?_
  intro p q hpq x hx y hy
  rw [Option.mem_def, Option.map_eq_some'] at hx hy
  obtain ⟨rx, _, hx2⟩ := hx
  obtain ⟨ry, _, hy2⟩ := hy
  rw [← hx2, ← hy2]
  exact hpq

/-- The spec example: recipes R1 Rice and R2 Curry. -/
def exampleRecipes : List RRow :=
  [{ recipe_id := "R1", name := "Rice", prep_time_minutes := none, difficulty := none },
   { recipe_id := "R2", name := "Curry", prep_time_minutes := none, difficulty := none }]

/-- The spec example: two VIEWs of R1 and one VIEW of R2. -/
def exampleInteractions : List IRow :=
  [{ user_id := "U1", recipe_id := "R1", interaction_type := "VIEW", rating := none },
   { user_id := "U2", recipe_id := "R1", interaction_type := "VIEW", rating := none },
   { user_id := "U3", recipe_id := "R2", interaction_type := "VIEW", rating := none }]

/-- Two recipes in the order Curry then Rice. -/
def tieRecipes : List RRow :=
  [{ recipe_id := "R2", name := "Curry", prep_time_minutes := none, difficulty := none },
   { recipe_id := "R1", name := "Rice", prep_time_minutes := none, difficulty := none }]

/-- One VIEW each, R2 encountered first in the interactions as well. -/
def tieInteractions : List IRow :=
  [{ user_id := "U1", recipe_id := "R2", interaction_type := "VIEW", rating := none },
   { user_id := "U2", recipe_id := "R1", interaction_type := "VIEW", rating := none }]

/-- C6 counterexample: with one VIEW each and recipe R2 (Curry) first
encountered both among the recipes and among the interactions, insight 5
lists Rice before Curry — the tie is broken by ascending recipe id from the
groupby, not by first-encountered input order as the claim states. -/
theorem c6_insight5_tiebreak_cex :
    insight5 tieRecipes tieInteractions = [("Rice", 1), ("Curry", 1)] ∧
    insight5 tieRecipes tieInteractions ≠ [("Curry", 1), ("Rice", 1)] := by
  decide

/-- C6 (amended): insight 5 returns the top-5 recipes by VIEW count in
descending count order with ties broken by ascending recipe id (the groupby
key order, preserved by the stable descending sort), as name-to-count pairs
in rank order: the ranked rows are sorted by that order, every ranked row
carries the exact VIEW count (necessarily positive) and the name of the
unique recipe with its id, every recipe with at least one VIEW appears
among the ranked rows, and on the spec's example input the result is
Rice:2, Curry:1. -/
theorem c6_insight5_amended (recipes : List RRow) (inters : List IRow)
    (h : (recipes.map (fun r => r.recipe_id)).Nodup) :
    insight5 recipes inters
      = ((rankedViews recipes inters).take 5).map (fun t => (t.2.1, t.2.2)) ∧
    (rankedViews recipes inters).Sorted lexView ∧
    (∀ e ∈ rankedViews recipes inters,
      e.2.2 = viewCount inters e.1 ∧ 0 < e.2.2 ∧
      ∃ r ∈ recipes, r.recipe_id = e.1 ∧ r.name = e.2.1) ∧
    (∀ r ∈ recipes, 0 < viewCount inters r.recipe_id →
      ∃ e ∈ rankedViews recipes inters, e.1 = r.recipe_id) ∧
    insight5 exampleRecipes exampleInteractions = [("Rice", 2), ("Curry", 1)] := by
  refine ⟨rfl, ?_, ?_, ?_, by decide⟩
  · exact insertionSort_lex _ (mergedViews_pairwise recipes inters)
  · intro e he
    have hm : e ∈ mergedViews recipes inters :=
      (List.perm_insertionSort countGe _).subset he
    rw [mergedViews, List.mem_filterMap] at hm
    obtain ⟨p, hp, hfp⟩ := hm
    rw [Option.map_eq_some'] at hfp
    obtain ⟨r, hr, he'⟩ := hfp
    have hfind := (find?_key_unique (fun r => r.recipe_id) recipes h
      p.1 r).mp hr
    rw [mem_gbSize] at hp
    subst he'
    refine ⟨hp.2, ?_, ⟨r, hfind.1, hfind.2, rfl⟩⟩
    rw [hp.2]
    exact List.count_pos_iff.mpr hp.1
  · intro r hr hv
    have hmem : r.recipe_id ∈ viewIdList inters := List.count_pos_iff.mp hv
    have hp : (r.recipe_id, (viewIdList inters).count r.recipe_id)
        ∈ gbSize (viewIdList inters) := (mem_gbSize _ _).mpr ⟨hmem, rfl⟩
    have hsome : (recipes.find? (fun a => a.recipe_id == r.recipe_id)).isSome := by
      rw [List.find?_isSome]
      exact ⟨r, hr, by simp⟩
    obtain ⟨r0, hr0⟩ := Option.isSome_iff_exists.mp hsome
    refine ⟨(r.recipe_id, r0.name, (viewIdList inters).count r.recipe_id),
      ?_, rfl⟩
    apply (List.perm_insertionSort countGe (mergedViews recipes inters)).symm.subset
    rw [mergedViews, List.mem_filterMap]
    refine ⟨(r.recipe_id, (viewIdList inters).count r.recipe_id), hp, ?_⟩
    rw [hr0]
    rfl

/-- Witness for C6 on the spec's own example input. -/
theorem c6_insight5_witness :
    insight5 exampleRecipes exampleInteractions = [("Rice", 2), ("Curry", 1)] :=
  (c6_insight5_amended exampleRecipes exampleInteractions (by decide)).2.2.2.2

lemma toFinset_filter_ne (l : List String) (u : String) :
    (l.filter (fun v => !(v == u))).toFinset = l.toFinset.erase u := by
  ext v
  simp [List.mem_filter, Finset.mem_erase, List.mem_toFinset, and_comm]

lemma card_insert_erase {α : Type} [DecidableEq α] (s : Finset α) (a : α) :
    (insert a s).card = (s.erase a).card + 1 := by
  by_cases h : a ∈ s
  · rw [Finset.insert_eq_self.mpr h, Finset.card_erase_add_one h]
  · rw [Finset.erase_eq_of_not_mem h, Finset.card_insert_of_not_mem h]

lemma dedupBy_count_eq (l : List IRow) (rid : String) :
    ((dedupByUserRecipe l).map (fun i => i.recipe_id)).count rid
      = ((l.filter (fun i => i.recipe_id == rid)).map
          (fun i => i.user_id)).toFinset.card := by
  induction l using dedupByUserRecipe.induct with
  | case1 => simp [dedupByUserRecipe]
  | case2 a t ih =>
      rw [dedupByUserRecipe]
      by_cases hra : a.recipe_id = rid
      · subst hra
        have hfa : (a.recipe_id == a.recipe_id) = true := by simp
        have hfc : (a :: t).filter (fun i => i.recipe_id == a.recipe_id)
            = a :: t.filter (fun i => i.recipe_id == a.recipe_id) := by
          simp [List.filter_cons, hfa]
        rw [List.map_cons, List.count_cons, hfc,
          List.map_cons, List.toFinset_cons, card_insert_erase, ih]
        have hff : (t.filter (fun b =>
              !(b.recipe_id == a.recipe_id && b.user_id == a.user_id))).filter
              (fun i => i.recipe_id == a.recipe_id)
            = (t.filter (fun i => i.recipe_id == a.recipe_id)).filter
              (fun b => !(b.user_id == a.user_id)) := by
          rw [List.filter_filter, List.filter_filter]
          apply List.filter_congr
          intro b _
          cases h1 : (b.recipe_id == a.recipe_id) <;>
            cases h2 : (b.user_id == a.user_id) <;> simp [h1, h2]
        rw [hff]
        have hmf : ((t.filter (fun i => i.recipe_id == a.recipe_id)).filter
              (fun b => !(b.user_id == a.user_id))).map (fun i => i.user_id)
            = ((t.filter (fun i => i.recipe_id == a.recipe_id)).map
                (fun i => i.user_id)).filter (fun u => !(u == a.user_id)) := by
          rw [List.filter_map]
          rfl
        rw [hmf, toFinset_filter_ne]
        simp
      · have hfa : (a.recipe_id == rid) = false := by
          simpa using hra
        have hfc : (a :: t).filter (fun i => i.recipe_id == rid)
            = t.filter (fun i => i.recipe_id == rid) := by
          simp [List.filter_cons, hfa]
        rw [List.map_cons, List.count_cons, hfc, ih]
        have hff : (t.filter (fun b =>
              !(b.recipe_id == a.recipe_id && b.user_id == a.user_id))).filter
              (fun i => i.recipe_id == rid)
            = t.filter (fun i => i.recipe_id == rid) := by
          rw [List.filter_filter]
          apply List.filter_congr
          intro b _
          cases h1 : (b.recipe_id == rid)
          · simp [h1]
          · have hbr : b.recipe_id = rid := by simpa using h1
            have hne : (b.recipe_id == a.recipe_id) = false := by
              simp only [hbr]
              simpa using fun he => hra he.symm
            simp [h1, hne]
        rw [hff]
        simp [hfa]

lemma likeIdList_count (inters : List IRow) (rid : String) :
    (likeIdList inters).count rid = distinctLikers inters rid := by
  unfold likeIdList uniqueLikeRows distinctLikers
  rw [dedupBy_count_eq]
  congr 1
  rw [List.filter_filter]
  have hfeq : inters.filter
        (fun a => a.recipe_id == rid && a.interaction_type == "LIKE")
      = inters.filter
        (fun i => i.interaction_type == "LIKE" && i.recipe_id == rid) := by
    apply List.filter_congr
    intro i _
    cases h1 : (i.interaction_type == "LIKE") <;>
      cases h2 : (i.recipe_id == rid) <;> simp [h1, h2]
  rw [hfeq]

/-- C8: insight 11 reports one (name, unique-like-count) pair: the count is
the number of distinct users with a LIKE on that recipe — duplicate LIKEs
by one user on one recipe count once — and is maximal over all recipes of
the record set. The hypothesis requires one LIKE interaction on a recipe
present in the recipe set; without it the inner merge is empty and
insight 11 reports nothing. -/
theorem c8_insight11_unique_likes (recipes : List RRow) (inters : List IRow)
    (hex : ∃ i ∈ inters, i.interaction_type = "LIKE" ∧
           ∃ r ∈ recipes, r.recipe_id = i.recipe_id) :
    ∃ e ∈ rankedUniqueLikes recipes inters,
      insight11 recipes inters = [(e.2.1, e.2.2)] ∧
      (∃ r ∈ recipes, r.recipe_id = e.1 ∧ r.name = e.2.1) ∧
      e.2.2 = distinctLikers inters e.1 ∧
      ∀ r ∈ recipes, distinctLikers inters r.recipe_id ≤ e.2.2 := by
  obtain ⟨i, hi, hlike, rstar, hrs, hids⟩ := hex
  -- the liked recipe id has a positive deduplicated like count
  have hpos : 0 < distinctLikers inters i.recipe_id := by
    rw [distinctLikers, Finset.card_pos]
    refine ⟨i.user_id, ?_⟩
    rw [List.mem_toFinset]
    refine List.mem_map_of_mem _ (List.mem_filter.mpr ⟨hi, ?_⟩)
    simp [hlike]
  have hcnt : 0 < (likeIdList inters).count i.recipe_id := by
    rw [likeIdList_count]
    exact hpos
  have hmemid : i.recipe_id ∈ likeIdList inters := List.count_pos_iff.mp hcnt
  have hgb : (i.recipe_id, (likeIdList inters).count i.recipe_id)
      ∈ gbSize (likeIdList inters) := (mem_gbSize _ _).mpr ⟨hmemid, rfl⟩
  -- the merged frame is nonempty
  have hsome : ((gbSize (likeIdList inters)).find?
      (fun p => p.1 == rstar.recipe_id)).isSome := by
    rw [List.find?_isSome]
    exact ⟨_, hgb, by simp [hids]⟩
  obtain ⟨p0, hp0⟩ := Option.isSome_iff_exists.mp hsome
  have hmm : (rstar.recipe_id, rstar.name, p0.2) ∈ mergedLikes recipes inters := by
    rw [mergedLikes, List.mem_filterMap]
    exact ⟨rstar, hrs, by rw [hp0]; rfl⟩
  have hrne : rankedUniqueLikes recipes inters ≠ [] :=
    List.ne_nil_of_mem
      ((List.perm_insertionSort countGe (mergedLikes recipes inters)).symm.subset hmm)
  obtain ⟨e, rest, hcons⟩ := List.exists_cons_of_ne_nil hrne
  have hsorted : (rankedUniqueLikes recipes inters).Sorted countGe :=
    List.sorted_insertionSort countGe (mergedLikes recipes inters)
  have hmax : ∀ x ∈ mergedLikes recipes inters, x.2.2 ≤ e.2.2 := by
    intro x hx
    have hx' : x ∈ rankedUniqueLikes recipes inters :=
      (List.perm_insertionSort countGe (mergedLikes recipes inters)).symm.subset hx
    rw [hcons] at hx' hsorted
    rw [List.sorted_cons] at hsorted
    rcases List.mem_cons.mp hx' with rfl | hxr
    · exact Nat.le_refl _
    · exact hsorted.1 x hxr
  -- unpack the head
  have hehead : e ∈ mergedLikes recipes inters := by
    refine (List.perm_insertionSort countGe (mergedLikes recipes inters)).subset ?_
    show e ∈ rankedUniqueLikes recipes inters
    rw [hcons]
    exact List.mem_cons_self e rest
  rw [mergedLikes, List.mem_filterMap] at hehead
  obtain ⟨re, hre, hfe⟩ := hehead
  rw [Option.map_eq_some'] at hfe
  obtain ⟨pe, hpe, hee⟩ := hfe
  have hpegb := List.mem_of_find?_eq_some hpe
  have hpek : pe.1 = re.recipe_id := by
    have := List.find?_some hpe
    simpa using this
  rw [mem_gbSize] at hpegb
  have hpecnt : pe.2 = distinctLikers inters re.recipe_id := by
    rw [hpegb.2, hpek, likeIdList_count]
  refine ⟨e, by rw [hcons]; exact List.mem_cons_self e rest, ?_, ?_, ?_, ?_⟩
  · rw [insight11, hcons]
    rfl
  · exact ⟨re, hre, by rw [← hee], by rw [← hee]⟩
  · rw [← hee]
    simpa using hpecnt
  · intro r hr
    cases hfind : (gbSize (likeIdList inters)).find?
        (fun p => p.1 == r.recipe_id) with
    | none =>
        rw [List.find?_eq_none] at hfind
        have hzero : distinctLikers inters r.recipe_id = 0 := by
          rw [← likeIdList_count]
          rw [List.count_eq_zero]
          intro hmem
          exact hfind (r.recipe_id, (likeIdList inters).count r.recipe_id)
            ((mem_gbSize _ _).mpr ⟨hmem, rfl⟩) (by simp)
        rw [hzero]
        exact Nat.zero_le _
    | some p =>
        have hmr : (r.recipe_id, r.name, p.2) ∈ mergedLikes recipes inters := by
          rw [mergedLikes, List.mem_filterMap]
          exact ⟨r, hr, by rw [hfind]; rfl⟩
        have hple := hmax _ hmr
        have hpk : p.1 = r.recipe_id := by
          have := List.find?_some hfind
          simpa using this
        have hpc : p.2 = distinctLikers inters r.recipe_id := by
          have hpg := List.mem_of_find?_eq_some hfind
          rw [mem_gbSize] at hpg
          rw [hpg.2, hpk, likeIdList_count]
        rw [← hpc]
        exact hple

/-- One recipe, one user liking it twice. -/
def witnessLikeRecipes : List RRow :=
  [{ recipe_id := "R1", name := "Rice", prep_time_minutes := none, difficulty := none }]

/-- Two duplicate LIKE events by the same user on the same recipe. -/
def witnessLikeInteractions : List IRow :=
  [{ user_id := "U1", recipe_id := "R1", interaction_type := "LIKE", rating := none },
   { user_id := "U1", recipe_id := "R1", interaction_type := "LIKE", rating := none }]

/-- Witness for C8 at a concrete input with a duplicate like. -/
theorem c8_insight11_witness :
    ∃ e ∈ rankedUniqueLikes witnessLikeRecipes witnessLikeInteractions,
      insight11 witnessLikeRecipes witnessLikeInteractions = [(e.2.1, e.2.2)] ∧
      (∃ r ∈ witnessLikeRecipes, r.recipe_id = e.1 ∧ r.name = e.2.1) ∧
      e.2.2 = distinctLikers witnessLikeInteractions e.1 ∧
      ∀ r ∈ witnessLikeRecipes,
        distinctLikers witnessLikeInteractions r.recipe_id ≤ e.2.2 :=
  c8_insight11_unique_likes witnessLikeRecipes witnessLikeInteractions
    (by decide)

end RecipeTask
